import Mathlib

/-
Shallow embedding of src/pipelib/pipelib.py (the `pipel` pipeline library).

Conventions of the embedding:
* A Python generator yielding values of type T is modelled by the finite List
  of the values it yields, in order.
* A Python callable that may raise is modelled as a function into `Except ε _`
  (a raised exception is `Except.error e`); a callable that cannot raise is a
  plain function.
* `multiprocessing.Pool.map(f, batch)` and `list(map(f, batch))` have the same
  functional semantics: apply `f` to each element in order, gather results
  indexed by original position, and propagate the first raised exception to
  the caller (for several failing elements the embedding resolves Pool.map's
  choice to list order; the claims never depend on which of several failures
  surfaces).
* `multiprocessing.Process(target=out, args=(res,)); p.start(); ...; p.join()`:
  the child invokes `out res`; an exception raised inside the child terminates
  only the child process, and `p.join()` in the parent returns normally in
  every case (CPython multiprocessing semantics) — so the parent's trace
  records the call but never observes its outcome.
* A value travelling over the prefetcher's Pipe is an arbitrary Python object:
  either an ordinary payload or the class object `StopIteration`, which
  `background_generator` uses as its end-of-stream sentinel. The type
  `ChanMsg β` distinguishes the two.
* The observable behaviour of a run is the list of arguments passed to the
  output procedure (content, order and grouping into calls), the list of
  batch indices at which a progress message was logged, and the final
  outcome (normal completion or the exception that escaped `run`).
-/

namespace Pipelib

/-- Embeds `Composed.__call__` (pipelib.py lines 24-32): `for f in
self.functions: arg = f(arg); return arg` — the functions are applied in
list order. -/
def Composed.call {α : Type} (functions : List (α → α)) (arg : α) : α :=
  match functions with
  | [] => arg
  | f :: fs => Composed.call fs (f arg)

/-- The same loop of `Composed.__call__` under Python exception semantics:
each callable may raise, and a raise propagates out of the loop at once. -/
def composedCallE {α ε : Type} (functions : List (α → Except ε α)) (arg : α) :
    Except ε α :=
  match functions with
  | [] => Except.ok arg
  | f :: fs =>
    match f arg with
    | Except.error e => Except.error e
    | Except.ok r => composedCallE fs r

/-- A message travelling over the prefetcher's Pipe: an ordinary payload
object, or the class object `StopIteration` used as sentinel. -/
inductive ChanMsg (β : Type) where
  | obj (b : β)
  | stopIterationCls
deriving DecidableEq

/-- Embeds the parent half of `Pipeline.background_generator` (lines
129-135): repeatedly receive `x`; if `x is StopIteration` stop, else yield
`x`. The argument is the full stream of messages the child sends. -/
def bg_recv {β : Type} : List (ChanMsg β) → List (ChanMsg β)
  | [] => []
  | ChanMsg.stopIterationCls :: _ => []
  | ChanMsg.obj b :: rest => ChanMsg.obj b :: bg_recv rest

/-- Embeds `Pipeline.background_generator` (lines 109-135): the child
(`_bg_gen`) sends every value yielded by the wrapped generator in order and
then sends the class object `StopIteration`; the parent yields what it
receives until the first message that `is StopIteration`. -/
def background_generator {β : Type} (gen : List (ChanMsg β)) :
    List (ChanMsg β) :=
  bg_recv (gen ++ [ChanMsg.stopIterationCls])

/-- Unwraps the model-level `ChanMsg` wrapper around the values the parent
generator yields (in Python the yielded `x` simply is the payload object).
The sentinel case is unreachable on `background_generator`'s output. -/
def stripObj {β : Type} : List (ChanMsg β) → List β
  | [] => []
  | ChanMsg.obj b :: rest => b :: stripObj rest
  | ChanMsg.stopIterationCls :: rest => stripObj rest

/-- One `while True` iteration structure of `Pipeline.batch_generator`
(lines 137-158), with explicit fuel bounding the number of iterations; each
iteration pulls up to `B` elements (the inner `for` breaks at
`idx == batch_size - 1`), stops when the source is exhausted
(`empty`), and with `batch_size <= 0` the inner break never fires so the
whole remaining source becomes one batch. `fuel = l.length` is always
enough, since every non-final iteration consumes at least one element. -/
def batch_generator_loop {α : Type} (fuel : Nat) (l : List α) (B : Nat) :
    List (List α) :=
  match fuel with
  | 0 => []
  | fuel + 1 =>
    if l.isEmpty then []
    else if B = 0 then [l]
    else l.take B :: batch_generator_loop fuel (l.drop B) B

/-- Embeds `Pipeline.batch_generator` (lines 137-158) on a finite source. -/
def batch_generator {α : Type} (l : List α) (B : Nat) : List (List α) :=
  batch_generator_loop l.length l B

/-- The exceptions that can escape `Pipeline.run`. -/
inductive RunError (ε : Type) where
  | assertionError
  | transformError (e : ε)
  | outputError (e : ε)
  | unboundLocalP
deriving DecidableEq

/-- Observable trace of one `Pipeline.run` call: the arguments passed to the
output procedure (in call order), the batch indices at which a progress
message was logged, and the exception that escaped `run`, if any. -/
structure RunResult (α ε : Type) where
  outputCalls : List (List α)
  logs : List Nat
  error : Option (RunError ε)
deriving DecidableEq

/-- Functional semantics shared by `pool.map(f, batch)` and
`list(map(f, batch))` (line 91): apply `f` in order, keep results in
position order, propagate the first exception. -/
def map_ordered {α β ε : Type} (f : α → Except ε β) : List α → Except ε (List β)
  | [] => Except.ok []
  | a :: l =>
    match f a with
    | Except.error e => Except.error e
    | Except.ok b =>
      match map_ordered f l with
      | Except.error e => Except.error e
      | Except.ok bs => Except.ok (b :: bs)

/-- Embeds the `for` loop of `Pipeline.run` (lines 90-103) with
`parallel=False`: map the composed processor over the batch and call the
output procedure synchronously; any exception aborts the loop. The
sequential branch contains no logging statement. -/
def runSeqLoop {α ε : Type} (processor : α → Except ε α)
    (output : List α → Except ε Unit) : List (List α) → RunResult α ε
  | [] => ⟨[], [], none⟩
  | b :: bs =>
    match map_ordered processor b with
    | Except.error e => ⟨[], [], some (RunError.transformError e)⟩
    | Except.ok res =>
      match output res with
      | Except.error e => ⟨[res], [], some (RunError.outputError e)⟩
      | Except.ok _ =>
        let r := runSeqLoop processor output bs
        ⟨res :: r.outputCalls, r.logs, r.error⟩

/-- Embeds the `for` loop of `Pipeline.run` (lines 90-103) with
`parallel=True`, carrying the running batch index `idx`. Per iteration:
`pool.map` the composed processor (an exception propagates at once); join
the previous output Process if any (the join never raises, even when the
output procedure raised in the child); log when a logger is configured and
`idx % log_every_iter == 0`; start a new Process running the output
procedure on `res` (its outcome is invisible to the parent). -/
def runParLoop {α ε : Type} (loggerOn : Bool) (logEvery : Nat)
    (processor : α → Except ε α) (output : List α → Except ε Unit)
    (idx : Nat) : List (List α) → RunResult α ε
  | [] => ⟨[], [], none⟩
  | b :: bs =>
    match map_ordered processor b with
    | Except.error e => ⟨[], [], some (RunError.transformError e)⟩
    | Except.ok res =>
      let logsHere := if loggerOn && idx % logEvery == 0 then [idx] else []
      let _child := output res
      let r := runParLoop loggerOn logEvery processor output (idx + 1) bs
      ⟨res :: r.outputCalls, logsHere ++ r.logs, r.error⟩

/-- Embeds the input wiring of `Pipeline.__init__` (lines 73-75): the source
is batched, and with `parallel=True` the batched generator is additionally
wrapped in `background_generator` (the Pipe carries the batch objects). -/
def pipelineBatches {α : Type} (parallel : Bool) (src : List α) (B : Nat) :
    List (List α) :=
  if parallel then
    stripObj (background_generator ((batch_generator src B).map ChanMsg.obj))
  else batch_generator src B

/-- Embeds `Pipeline.run` (lines 82-107). `assert not self.done` raises
`AssertionError` on a pipeline that already completed a run. An exception
inside the loop propagates immediately, skipping the final `p.join()` and
`self.done = True`. When the loop completes normally having processed no
batch, the final `if self.parallel: p.join()` reads the never-assigned
local `p` and raises `UnboundLocalError`. -/
def run {α ε : Type} (parallel : Bool) (done : Bool) (loggerOn : Bool)
    (logEvery : Nat) (processors : List (α → Except ε α))
    (output : List α → Except ε Unit) (src : List α) (B : Nat) :
    RunResult α ε × Bool :=
  if done then (⟨[], [], some RunError.assertionError⟩, done)
  else
    let batches := pipelineBatches parallel src B
    let processor := composedCallE processors
    if parallel then
      let r := runParLoop loggerOn logEvery processor output 0 batches
      match r.error with
      | some _ => (r, false)
      | none =>
        match batches with
        | [] => (⟨r.outputCalls, r.logs, some RunError.unboundLocalP⟩, false)
        | _ :: _ => (r, true)
    else
      let r := runSeqLoop processor output batches
      match r.error with
      | some _ => (r, false)
      | none => (r, true)

/-- Concrete transformation used as a witness input: raises on the element
1 and returns every other element unchanged. -/
def procFailAtOne : Nat → Except Unit Nat :=
  fun n => if n = 1 then Except.error () else Except.ok n

/-! Helper lemmas about the batching loop. -/

theorem bg_loop_nil {α : Type} (fuel B : Nat) :
    batch_generator_loop fuel ([] : List α) B = [] := by
  cases fuel <;> rfl

theorem bg_loop_fuel {α : Type} (B : Nat) :
    ∀ (f1 f2 : Nat) (l : List α), l.length ≤ f1 → l.length ≤ f2 →
      batch_generator_loop f1 l B = batch_generator_loop f2 l B := by
  intro f1
  induction f1 with
  | zero =>
    intro f2 l h1 _
    have hl : l = [] := List.eq_nil_of_length_eq_zero (Nat.le_zero.mp h1)
    subst hl
    simp [bg_loop_nil]
  | succ f ih =>
    intro f2 l h1 h2
    cases l with
    | nil => simp [bg_loop_nil]
    | cons a rest =>
      cases f2 with
      | zero => simp at h2
      | succ g =>
        simp only [batch_generator_loop, List.isEmpty_cons, Bool.false_eq_true,
          if_false]
        by_cases hB : B = 0
        · simp [hB]
        · simp only [hB, if_false]
          have hd : ((a :: rest).drop B).length ≤ f := by
            simp only [List.length_drop, List.length_cons]
            simp only [List.length_cons] at h1
            omega
          have hd2 : ((a :: rest).drop B).length ≤ g := by
            simp only [List.length_drop, List.length_cons]
            simp only [List.length_cons] at h2
            omega
          rw [ih g ((a :: rest).drop B) hd hd2]

theorem batch_generator_nil {α : Type} (B : Nat) :
    batch_generator ([] : List α) B = [] := rfl

theorem batch_generator_cons {α : Type} {l : List α} (hl : l ≠ []) {B : Nat}
    (hB : B ≠ 0) :
    batch_generator l B = l.take B :: batch_generator (l.drop B) B := by
  cases l with
  | nil => exact absurd rfl hl
  | cons a rest =>
    show batch_generator_loop ((a :: rest).length) (a :: rest) B = _
    simp only [List.length_cons, batch_generator_loop, List.isEmpty_cons,
      Bool.false_eq_true, if_false, hB]
    have hd : ((a :: rest).drop B).length ≤ rest.length := by
      simp only [List.length_drop, List.length_cons]
      omega
    rw [bg_loop_fuel B rest.length ((a :: rest).drop B).length ((a :: rest).drop B)
      hd (Nat.le_refl _)]
    rfl

theorem batch_generator_ne_nil {α : Type} {l : List α} (hl : l ≠ []) (B : Nat) :
    batch_generator l B ≠ [] := by
  by_cases hB : B = 0
  · subst hB
    cases l with
    | nil => exact absurd rfl hl
    | cons a rest =>
      show batch_generator_loop ((a :: rest).length) (a :: rest) 0 ≠ []
      simp [batch_generator_loop]
  · rw [batch_generator_cons hl hB]
    simp

theorem batch_generator_flatten {α : Type} {B : Nat} (hB : B ≠ 0) (l : List α) :
    (batch_generator l B).flatten = l := by
  by_cases hl : l = []
  · subst hl; rfl
  · rw [batch_generator_cons hl hB, List.flatten_cons,
      batch_generator_flatten hB (l.drop B), List.take_append_drop]
termination_by l.length
decreasing_by
  simp only [List.length_drop]
  exact Nat.sub_lt (List.length_pos.mpr hl) (Nat.pos_of_ne_zero hB)

theorem batch_generator_dropLast {α : Type} {B : Nat} (hB : B ≠ 0) (l : List α) :
    ∀ b ∈ (batch_generator l B).dropLast, b.length = B := by
  by_cases hl : l = []
  · subst hl
    intro b hb
    simp [batch_generator_nil] at hb
  · rw [batch_generator_cons hl hB]
    by_cases hd : l.drop B = []
    · rw [hd, batch_generator_nil]
      intro b hb
      simp at hb
    · intro b hb
      cases hbg : batch_generator (l.drop B) B with
      | nil => exact absurd hbg (batch_generator_ne_nil hd B)
      | cons c cs =>
        rw [hbg, List.dropLast_cons₂, List.mem_cons] at hb
        rcases hb with h | h
        · subst h
          have hlen : B < l.length := by
            by_contra hcon
            push_neg at hcon
            exact hd (List.drop_eq_nil_of_le hcon)
          simp [List.length_take]
          omega
        · have := batch_generator_dropLast hB (l.drop B) b
          rw [hbg] at this
          exact this h
termination_by l.length
decreasing_by
  simp only [List.length_drop]
  exact Nat.sub_lt (List.length_pos.mpr hl) (Nat.pos_of_ne_zero hB)

theorem batch_generator_getLast {α : Type} {B : Nat} (hB : B ≠ 0) (l : List α) :
    ∀ b, (batch_generator l B).getLast? = some b →
      1 ≤ b.length ∧ b.length ≤ B := by
  by_cases hl : l = []
  · subst hl
    intro b hb
    simp [batch_generator_nil] at hb
  · rw [batch_generator_cons hl hB]
    by_cases hd : l.drop B = []
    · rw [hd, batch_generator_nil]
      intro b hb
      rw [List.getLast?_singleton] at hb
      cases hb
      have hlen : l.length ≤ B := List.drop_eq_nil_iff.mp hd
      have hpos : 0 < l.length := List.length_pos.mpr hl
      simp [List.length_take]
      omega
    · intro b hb
      cases hbg : batch_generator (l.drop B) B with
      | nil => exact absurd hbg (batch_generator_ne_nil hd B)
      | cons c cs =>
        rw [hbg, List.getLast?_cons_cons] at hb
        have := batch_generator_getLast hB (l.drop B) b
        rw [hbg] at this
        exact this hb
termination_by l.length
decreasing_by
  simp only [List.length_drop]
  exact Nat.sub_lt (List.length_pos.mpr hl) (Nat.pos_of_ne_zero hB)

/-! Helper lemmas about the prefetcher. -/

theorem bg_recv_no_sentinel {β : Type} :
    ∀ gen : List (ChanMsg β), ChanMsg.stopIterationCls ∉ gen →
      ∀ tail : List (ChanMsg β),
        bg_recv (gen ++ ChanMsg.stopIterationCls :: tail) = gen := by
  intro gen
  induction gen with
  | nil => intro _ _; rfl
  | cons m rest ih =>
    intro h tail
    cases m with
    | stopIterationCls => exact absurd (List.mem_cons_self _ _) h
    | obj b =>
      have h2 : ChanMsg.stopIterationCls ∉ rest :=
        fun hm => h (List.mem_cons_of_mem _ hm)
      simp [bg_recv, ih h2 tail]

theorem background_generator_no_sentinel {β : Type} (gen : List (ChanMsg β))
    (h : ChanMsg.stopIterationCls ∉ gen) : background_generator gen = gen :=
  bg_recv_no_sentinel gen h []

theorem background_generator_truncates {β : Type} (pre post : List (ChanMsg β))
    (hpre : ChanMsg.stopIterationCls ∉ pre) :
    background_generator (pre ++ ChanMsg.stopIterationCls :: post) = pre := by
  show bg_recv ((pre ++ ChanMsg.stopIterationCls :: post)
    ++ [ChanMsg.stopIterationCls]) = pre
  rw [List.append_assoc, List.cons_append]
  exact bg_recv_no_sentinel pre hpre (post ++ [ChanMsg.stopIterationCls])

theorem map_obj_no_sentinel {β : Type} (l : List β) :
    ChanMsg.stopIterationCls ∉ l.map ChanMsg.obj := by
  intro h
  rcases List.mem_map.mp h with ⟨b, _, hb⟩
  exact ChanMsg.noConfusion hb

theorem background_generator_map_obj {β : Type} (l : List β) :
    background_generator (l.map ChanMsg.obj) = l.map ChanMsg.obj :=
  background_generator_no_sentinel _ (map_obj_no_sentinel l)

theorem stripObj_map_obj {β : Type} (l : List β) :
    stripObj (l.map ChanMsg.obj) = l := by
  induction l with
  | nil => rfl
  | cons a rest ih => simp [stripObj, ih]

theorem pipelineBatches_eq {α : Type} (parallel : Bool) (src : List α)
    (B : Nat) : pipelineBatches parallel src B = batch_generator src B := by
  cases parallel
  · rfl
  · show stripObj (background_generator _) = _
    rw [background_generator_map_obj, stripObj_map_obj]

/-! Helper lemmas about the run loop. -/

theorem map_ordered_ok {α β ε : Type} (f : α → Except ε β)
    (hf : ∀ a, ∃ r, f a = Except.ok r) :
    ∀ l : List α, ∃ rs, map_ordered f l = Except.ok rs := by
  intro l
  induction l with
  | nil => exact ⟨[], rfl⟩
  | cons a rest ih =>
    obtain ⟨r, hr⟩ := hf a
    obtain ⟨rs, hrs⟩ := ih
    exact ⟨r :: rs, by simp [map_ordered, hr, hrs]⟩

theorem runSeqLoop_logs {α ε : Type} (proc : α → Except ε α)
    (output : List α → Except ε Unit) :
    ∀ bs : List (List α), (runSeqLoop proc output bs).logs = [] := by
  intro bs
  induction bs with
  | nil => rfl
  | cons b rest ih =>
    cases hm : map_ordered proc b with
    | error e => simp [runSeqLoop, hm]
    | ok res =>
      cases ho : output res with
      | error e => simp [runSeqLoop, hm, ho]
      | ok u => simp [runSeqLoop, hm, ho, ih]

theorem loops_outputCalls_eq {α ε : Type} (loggerOn : Bool) (k : Nat)
    (proc : α → Except ε α) (output : List α → Except ε Unit)
    (hout : ∀ r, output r = Except.ok ()) :
    ∀ (bs : List (List α)) (idx : Nat),
      (runParLoop loggerOn k proc output idx bs).outputCalls
        = (runSeqLoop proc output bs).outputCalls := by
  intro bs
  induction bs with
  | nil => intro _; rfl
  | cons b rest ih =>
    intro idx
    cases hm : map_ordered proc b with
    | error e => simp [runParLoop, runSeqLoop, hm]
    | ok res => simp [runParLoop, runSeqLoop, hm, hout res, ih (idx + 1)]

theorem runParLoop_error_shape {α ε : Type} (loggerOn : Bool) (k : Nat)
    (proc : α → Except ε α) (output : List α → Except ε Unit) :
    ∀ (bs : List (List α)) (idx : Nat),
      (runParLoop loggerOn k proc output idx bs).error = none
      ∨ ∃ e, (runParLoop loggerOn k proc output idx bs).error
          = some (RunError.transformError e) := by
  intro bs
  induction bs with
  | nil => intro _; exact Or.inl rfl
  | cons b rest ih =>
    intro idx
    cases hm : map_ordered proc b with
    | error e => exact Or.inr ⟨e, by simp [runParLoop, hm]⟩
    | ok res =>
      rcases ih (idx + 1) with h | ⟨e, h⟩
      · exact Or.inl (by simp [runParLoop, hm, h])
      · exact Or.inr ⟨e, by simp [runParLoop, hm, h]⟩

theorem runParLoop_ok {α ε : Type} (loggerOn : Bool) (k : Nat)
    (proc : α → Except ε α) (output : List α → Except ε Unit)
    (hproc : ∀ b : List α, ∃ rs, map_ordered proc b = Except.ok rs) :
    ∀ (bs : List (List α)) (idx : Nat),
      (runParLoop loggerOn k proc output idx bs).error = none
      ∧ (runParLoop loggerOn k proc output idx bs).logs
          = (List.range' idx bs.length).filter
              (fun i => loggerOn && i % k == 0) := by
  intro bs
  induction bs with
  | nil => intro _; exact ⟨rfl, rfl⟩
  | cons b rest ih =>
    intro idx
    obtain ⟨rs, hrs⟩ := hproc b
    simp only [runParLoop, hrs]
    refine ⟨by simpa using (ih (idx + 1)).1, ?_⟩
    simp only [List.length_cons, List.range'_succ, List.filter_cons]
    by_cases hc : (loggerOn && idx % k == 0) = true
    · simp [hc, (ih (idx + 1)).2]
    · simp only [Bool.not_eq_true] at hc
      simp [hc, (ih (idx + 1)).2]

theorem runParLoop_prefix_fail {α ε : Type} (loggerOn : Bool) (k : Nat)
    (proc : α → Except ε α) (output : List α → Except ε Unit) {e : ε} :
    ∀ (pre rs : List (List α)) (b : List α) (post : List (List α)) (idx : Nat),
      map_ordered (map_ordered proc) pre = Except.ok rs →
      map_ordered proc b = Except.error e →
      (runParLoop loggerOn k proc output idx (pre ++ b :: post)).outputCalls = rs
      ∧ (runParLoop loggerOn k proc output idx (pre ++ b :: post)).error
          = some (RunError.transformError e) := by
  intro pre
  induction pre with
  | nil =>
    intro rs b post idx hpre hfail
    simp only [map_ordered] at hpre
    cases hpre
    simp [runParLoop, hfail]
  | cons c pre ih =>
    intro rs b post idx hpre hfail
    cases hc : map_ordered proc c with
    | error e2 => simp [map_ordered, hc] at hpre
    | ok r1 =>
      cases hrest : map_ordered (map_ordered proc) pre with
      | error e2 => simp [map_ordered, hc, hrest] at hpre
      | ok rs2 =>
        simp only [map_ordered, hc, hrest] at hpre
        cases hpre
        have hrec := ih rs2 b post (idx + 1) hrest hfail
        simp only [List.cons_append, runParLoop, hc]
        exact ⟨by simpa using hrec.1, by simpa using hrec.2⟩

theorem runSeqLoop_prefix_fail {α ε : Type} (proc : α → Except ε α)
    (output : List α → Except ε Unit) (hout : ∀ r, output r = Except.ok ())
    {e : ε} :
    ∀ (pre rs : List (List α)) (b : List α) (post : List (List α)),
      map_ordered (map_ordered proc) pre = Except.ok rs →
      map_ordered proc b = Except.error e →
      (runSeqLoop proc output (pre ++ b :: post)).outputCalls = rs
      ∧ (runSeqLoop proc output (pre ++ b :: post)).error
          = some (RunError.transformError e) := by
  intro pre
  induction pre with
  | nil =>
    intro rs b post hpre hfail
    simp only [map_ordered] at hpre
    cases hpre
    simp [runSeqLoop, hfail]
  | cons c pre ih =>
    intro rs b post hpre hfail
    cases hc : map_ordered proc c with
    | error e2 => simp [map_ordered, hc] at hpre
    | ok r1 =>
      cases hrest : map_ordered (map_ordered proc) pre with
      | error e2 => simp [map_ordered, hc, hrest] at hpre
      | ok rs2 =>
        simp only [map_ordered, hc, hrest] at hpre
        cases hpre
        have hrec := ih rs2 b post hrest hfail
        simp only [List.cons_append, runSeqLoop, hc, hout r1]
        exact ⟨by simpa using hrec.1, by simpa using hrec.2⟩

theorem runSeqLoop_output_fail {α ε : Type} (proc : α → Except ε α)
    (output : List α → Except ε Unit) (b : List α) (bs : List (List α))
    (res : List α) (e : ε) (h1 : map_ordered proc b = Except.ok res)
    (h2 : output res = Except.error e) :
    runSeqLoop proc output (b :: bs)
      = ⟨[res], [], some (RunError.outputError e)⟩ := by
  simp [runSeqLoop, h1, h2]

/-! Helper lemmas relating `run` to its loops. -/

theorem run_seq_result {α ε : Type} (loggerOn : Bool) (k : Nat)
    (processors : List (α → Except ε α)) (output : List α → Except ε Unit)
    (src : List α) (B : Nat) :
    (run false false loggerOn k processors output src B).1
      = runSeqLoop (composedCallE processors) output (batch_generator src B) := by
  simp only [run, pipelineBatches_eq, Bool.false_eq_true, if_false]
  cases he : (runSeqLoop (composedCallE processors) output
      (batch_generator src B)).error with
  | none => simp [he]
  | some e => simp [he]

theorem run_seq_done {α ε : Type} (loggerOn : Bool) (k : Nat)
    (processors : List (α → Except ε α)) (output : List α → Except ε Unit)
    (src : List α) (B : Nat) :
    (run false false loggerOn k processors output src B).2
      = ((runSeqLoop (composedCallE processors) output
          (batch_generator src B)).error = none) := by
  simp only [run, pipelineBatches_eq, Bool.false_eq_true, if_false]
  cases he : (runSeqLoop (composedCallE processors) output
      (batch_generator src B)).error with
  | none => simp [he]
  | some e => simp [he]

theorem run_par_outputCalls {α ε : Type} (loggerOn : Bool) (k : Nat)
    (processors : List (α → Except ε α)) (output : List α → Except ε Unit)
    (src : List α) (B : Nat) :
    (run true false loggerOn k processors output src B).1.outputCalls
      = (runParLoop loggerOn k (composedCallE processors) output 0
          (batch_generator src B)).outputCalls := by
  simp only [run, pipelineBatches_eq, Bool.false_eq_true, if_false, if_true]
  cases he : (runParLoop loggerOn k (composedCallE processors) output 0
      (batch_generator src B)).error with
  | none =>
    cases hbs : batch_generator src B with
    | nil => simp [hbs]
    | cons c cs => simp [hbs]
  | some e => simp [he]

theorem run_par_logs {α ε : Type} (loggerOn : Bool) (k : Nat)
    (processors : List (α → Except ε α)) (output : List α → Except ε Unit)
    (src : List α) (B : Nat) :
    (run true false loggerOn k processors output src B).1.logs
      = (runParLoop loggerOn k (composedCallE processors) output 0
          (batch_generator src B)).logs := by
  simp only [run, pipelineBatches_eq, Bool.false_eq_true, if_false, if_true]
  cases he : (runParLoop loggerOn k (composedCallE processors) output 0
      (batch_generator src B)).error with
  | none =>
    cases hbs : batch_generator src B with
    | nil => simp [hbs]
    | cons c cs => simp [hbs]
  | some e => simp [he]

theorem run_par_error_some {α ε : Type} (loggerOn : Bool) (k : Nat)
    (processors : List (α → Except ε α)) (output : List α → Except ε Unit)
    (src : List α) (B : Nat) (e : RunError ε)
    (he : (runParLoop loggerOn k (composedCallE processors) output 0
        (batch_generator src B)).error = some e) :
    (run true false loggerOn k processors output src B).1.error = some e
    ∧ (run true false loggerOn k processors output src B).2 = false := by
  simp only [run, pipelineBatches_eq, Bool.false_eq_true, if_false, if_true]
  simp [he]

theorem run_par_complete {α ε : Type} (loggerOn : Bool) (k : Nat)
    (processors : List (α → Except ε α)) (output : List α → Except ε Unit)
    (src : List α) (B : Nat)
    (he : (runParLoop loggerOn k (composedCallE processors) output 0
        (batch_generator src B)).error = none)
    (hne : batch_generator src B ≠ []) :
    (run true false loggerOn k processors output src B).1.error = none
    ∧ (run true false loggerOn k processors output src B).2 = true := by
  simp only [run, pipelineBatches_eq, Bool.false_eq_true, if_false, if_true]
  cases hbs : batch_generator src B with
  | nil => exact absurd hbs hne
  | cons c cs =>
    rw [hbs] at he
    simp [he]

theorem run_par_empty {α ε : Type} (loggerOn : Bool) (k : Nat)
    (processors : List (α → Except ε α)) (output : List α → Except ε Unit)
    (src : List α) (B : Nat) (hbs : batch_generator src B = []) :
    run true false loggerOn k processors output src B
      = (⟨[], [], some RunError.unboundLocalP⟩, false) := by
  simp [run, pipelineBatches_eq, hbs, runParLoop]

/-! Claim theorems. -/

/-- C2: for every sequence S and batch size B ≥ 1, concatenating in order
the batches produced by `batch_generator` reconstructs S exactly; every
produced batch except possibly the last has length exactly B; the last
batch has length in [1, B]; and an empty source produces zero batches. -/
theorem C2_batcher_partition {α : Type} (S : List α) (B : Nat) (hB : 1 ≤ B) :
    (batch_generator S B).flatten = S
    ∧ (∀ b ∈ (batch_generator S B).dropLast, b.length = B)
    ∧ (∀ b, (batch_generator S B).getLast? = some b →
        1 ≤ b.length ∧ b.length ≤ B)
    ∧ (S = [] → batch_generator S B = []) :=
  ⟨batch_generator_flatten (Nat.pos_iff_ne_zero.mp hB) S,
   batch_generator_dropLast (Nat.pos_iff_ne_zero.mp hB) S,
   batch_generator_getLast (Nat.pos_iff_ne_zero.mp hB) S,
   fun h => by subst h; rfl⟩

theorem C2_batcher_partition_witness :
    (batch_generator [1, 2, 3, 4, 5] 2).flatten = [1, 2, 3, 4, 5]
    ∧ (∀ b ∈ (batch_generator [1, 2, 3, 4, 5] 2).dropLast, b.length = 2)
    ∧ (∀ b, (batch_generator [1, 2, 3, 4, 5] 2).getLast? = some b →
        1 ≤ b.length ∧ b.length ≤ 2)
    ∧ ([1, 2, 3, 4, 5] = ([] : List Nat) →
        batch_generator [1, 2, 3, 4, 5] 2 = []) :=
  C2_batcher_partition [1, 2, 3, 4, 5] 2 (by decide)

/-- C5: wrapping any batched source in the prefetching
`background_generator` yields exactly the same batches, with the same
contents in the same order, as consuming the batch generator directly —
batches are payload objects, never the `StopIteration` sentinel. The
quantification over `src` covers source lengths 0, 1, B, B+1 and every
multiple of B. -/
theorem C5_prefetch_preserves_batches {α : Type} (src : List α) (B : Nat) :
    background_generator ((batch_generator src B).map ChanMsg.obj)
      = (batch_generator src B).map ChanMsg.obj :=
  background_generator_map_obj _

/-- C8: the composed transformation applies the functions in list order —
`compose([f1,f2,f3])(x) = f3(f2(f1(x)))` — and composing the empty list
yields the identity function. -/
theorem C8_compose_order {α : Type} (f1 f2 f3 : α → α) (x : α) :
    Composed.call [f1, f2, f3] x = f3 (f2 (f1 x))
    ∧ Composed.call ([] : List (α → α)) x = x :=
  ⟨rfl, rfl⟩

/-- C10: `background_generator` uses the class object `StopIteration` as an
in-band end-of-stream sentinel: an underlying stream that never yields the
sentinel object passes through unchanged, while a stream that yields it as
a legitimate value is truncated at that element, silently dropping it and
every subsequent value. -/
theorem C10_sentinel_semantics {β : Type} :
    (∀ gen : List (ChanMsg β), ChanMsg.stopIterationCls ∉ gen →
      background_generator gen = gen)
    ∧ (∀ pre post : List (ChanMsg β), ChanMsg.stopIterationCls ∉ pre →
      background_generator (pre ++ ChanMsg.stopIterationCls :: post) = pre) :=
  ⟨background_generator_no_sentinel, background_generator_truncates⟩

theorem C10_sentinel_semantics_witness :
    background_generator [ChanMsg.obj 1, ChanMsg.obj 2]
      = [ChanMsg.obj 1, ChanMsg.obj 2]
    ∧ background_generator
        ([ChanMsg.obj 1] ++ ChanMsg.stopIterationCls :: [ChanMsg.obj 2])
      = [ChanMsg.obj 1] :=
  ⟨C10_sentinel_semantics.1 [ChanMsg.obj 1, ChanMsg.obj 2] (by decide),
   C10_sentinel_semantics.2 [ChanMsg.obj 1] [ChanMsg.obj 2] (by decide)⟩

/-- C1: for every finite input source, every transformation chain, and
every batch size B ≥ 1, a run with `parallel=True` passes exactly the same
arguments to the output procedure — same elements, same order, same
grouping into calls — as a run with `parallel=False`, whenever the output
procedure itself does not raise (a raising output procedure is the subject
of C3). -/
theorem C1_parallel_sequential_output_equiv {α ε : Type}
    (processors : List (α → Except ε α)) (output : List α → Except ε Unit)
    (hout : ∀ r, output r = Except.ok ()) (src : List α) (B : Nat)
    (hB : 1 ≤ B) (loggerOn : Bool) (k : Nat) :
    (run true false loggerOn k processors output src B).1.outputCalls
      = (run false false loggerOn k processors output src B).1.outputCalls := by
  rw [run_par_outputCalls, run_seq_result]
  exact loops_outputCalls_eq loggerOn k (composedCallE processors) output hout
    (batch_generator src B) 0

theorem C1_parallel_sequential_output_equiv_witness :
    (run true false false 1 [fun n => Except.ok (n + 1)]
        (fun _ => (Except.ok () : Except Unit Unit)) [0, 1, 2] 2).1.outputCalls
      = (run false false false 1 [fun n => Except.ok (n + 1)]
        (fun _ => (Except.ok () : Except Unit Unit)) [0, 1, 2] 2).1.outputCalls :=
  C1_parallel_sequential_output_equiv [fun n => Except.ok (n + 1)] _
    (fun _ => rfl) [0, 1, 2] 2 (by decide) false 1

/-- C3 counterexample: with `parallel=True` and an output procedure that
raises on every batch, the failure is never rethrown at any join point: the
run completes error-free and reaches Done even though the output procedure
failed on batch 0, contradicting the claim that the deferred failure is
rethrown at the next join and the pipeline aborts there. -/
theorem C3_output_failure_counterexample :
    (run true false false 1 ([] : List (Nat → Except Unit Nat))
        (fun _ => Except.error ()) [1, 2] 1).1.error = none
    ∧ (run true false false 1 ([] : List (Nat → Except Unit Nat))
        (fun _ => Except.error ()) [1, 2] 1).2 = true
    ∧ (run true false false 1 ([] : List (Nat → Except Unit Nat))
        (fun _ => Except.error ()) [1, 2] 1).1.outputCalls = [[1], [2]] := by
  decide

/-- C3 amended: in sequential mode an output-procedure failure propagates
immediately — the run stops at that batch with the output error and never
reaches Done; in parallel mode the failure is NOT preserved or rethrown at
any join point: the exception dies with the child process, the joins return
normally, and a parallel run whose transformations succeed on a nonempty
source completes error-free regardless of output failures. -/
theorem C3_output_failure_amended {α ε : Type}
    (processors : List (α → Except ε α)) (output : List α → Except ε Unit)
    (src : List α) (B : Nat) (loggerOn : Bool) (k : Nat) :
    (src ≠ [] → (∀ a : α, ∃ r, composedCallE processors a = Except.ok r) →
      (run true false loggerOn k processors output src B).1.error = none
      ∧ (run true false loggerOn k processors output src B).2 = true)
    ∧ (∀ (b : List α) (bs : List (List α)) (res : List α) (e : ε),
        batch_generator src B = b :: bs →
        map_ordered (composedCallE processors) b = Except.ok res →
        output res = Except.error e →
        run false false loggerOn k processors output src B
          = (⟨[res], [], some (RunError.outputError e)⟩, false)) := by
  constructor
  · intro hsrc hproc
    have hbatch := map_ordered_ok (composedCallE processors) hproc
    have h := runParLoop_ok loggerOn k (composedCallE processors) output
      hbatch (batch_generator src B) 0
    exact run_par_complete loggerOn k processors output src B h.1
      (batch_generator_ne_nil hsrc B)
  · intro b bs res e hbs hmap houtf
    have hloop : runSeqLoop (composedCallE processors) output
        (batch_generator src B)
        = ⟨[res], [], some (RunError.outputError e)⟩ := by
      rw [hbs]
      exact runSeqLoop_output_fail _ _ b bs res e hmap houtf
    have h1 := run_seq_result loggerOn k processors output src B
    have h2 := run_seq_done loggerOn k processors output src B
    rw [hloop] at h1 h2
    simp only [decide_eq_true_eq] at h2
    refine Prod.ext h1 ?_
    simp at h2
    exact h2

theorem C3_output_failure_amended_witness :
    ((run true false false 1 ([] : List (Nat → Except Unit Nat))
        (fun _ => Except.error ()) [3, 4] 1).1.error = none
      ∧ (run true false false 1 ([] : List (Nat → Except Unit Nat))
        (fun _ => Except.error ()) [3, 4] 1).2 = true)
    ∧ run false false false 1 ([] : List (Nat → Except Unit Nat))
        (fun _ => Except.error ()) [3, 4] 1
        = (⟨[[3]], [], some (RunError.outputError ())⟩, false) :=
  ⟨(C3_output_failure_amended [] _ [3, 4] 1 false 1).1 (by decide)
      (fun a => ⟨a, rfl⟩),
   (C3_output_failure_amended [] _ [3, 4] 1 false 1).2 [3] [[4]] [3] ()
      (by decide) rfl rfl⟩

/-- C4 (code bug witness): with an empty input source, zero batches are
processed and the output procedure is never invoked in either mode, and the
sequential run reaches Done without error; but with `parallel=True` the
final `p.join()` reads the never-assigned local `p`, so the run raises
`UnboundLocalError` and never reaches Done, contradicting the claim. -/
theorem C4_empty_source_behaviour :
    (run true false false 1 ([] : List (Nat → Except Unit Nat))
        (fun _ => Except.ok ()) ([] : List Nat) 5)
      = (⟨[], [], some RunError.unboundLocalP⟩, false)
    ∧ (run false false false 1 ([] : List (Nat → Except Unit Nat))
        (fun _ => Except.ok ()) ([] : List Nat) 5)
      = (⟨[], [], none⟩, true) := by
  decide

/-- C6: if a transformation raises on an element of a batch, in both
sequential and parallel mode the whole in-flight batch is aborted — the
output procedure receives exactly the results of the earlier batches and
no element of the failing batch — and the exception propagates
synchronously to the caller of `run`, which never reaches Done. -/
theorem C6_transform_failure_aborts_batch {α ε : Type}
    (processors : List (α → Except ε α)) (output : List α → Except ε Unit)
    (hout : ∀ r, output r = Except.ok ()) (src : List α) (B : Nat)
    (loggerOn : Bool) (k : Nat) (pre rs : List (List α)) (b : List α)
    (post : List (List α)) (e : ε)
    (hbs : batch_generator src B = pre ++ b :: post)
    (hpre : map_ordered (map_ordered (composedCallE processors)) pre
      = Except.ok rs)
    (hfail : map_ordered (composedCallE processors) b = Except.error e) :
    ∀ parallel : Bool,
      (run parallel false loggerOn k processors output src B).1.outputCalls
        = rs
      ∧ (run parallel false loggerOn k processors output src B).1.error
          = some (RunError.transformError e)
      ∧ (run parallel false loggerOn k processors output src B).2 = false := by
  intro parallel
  cases parallel
  · have h := runSeqLoop_prefix_fail (composedCallE processors) output hout
      pre rs b post hpre hfail
    have h1 := run_seq_result loggerOn k processors output src B
    have h2 := run_seq_done loggerOn k processors output src B
    rw [hbs] at h1 h2
    refine ⟨by rw [h1]; exact h.1, by rw [h1]; exact h.2, ?_⟩
    have h3 : ¬((run false false loggerOn k processors output src B).2 = true) := by
      rw [h2, h.2]
      simp
    simpa using h3
  · have h := runParLoop_prefix_fail loggerOn k (composedCallE processors)
      output pre rs b post 0 hpre hfail
    have herr := run_par_error_some loggerOn k processors output src B
      (RunError.transformError e) (by rw [hbs]; exact h.2)
    refine ⟨?_, herr.1, herr.2⟩
    rw [run_par_outputCalls, hbs]
    exact h.1

theorem C6_transform_failure_aborts_batch_witness :
    ((run true false false 1 [procFailAtOne]
          (fun _ => (Except.ok () : Except Unit Unit)) [0, 1] 1).1.outputCalls
        = [[0]]
      ∧ (run true false false 1 [procFailAtOne]
          (fun _ => (Except.ok () : Except Unit Unit)) [0, 1] 1).1.error
          = some (RunError.transformError ())
      ∧ (run true false false 1 [procFailAtOne]
          (fun _ => (Except.ok () : Except Unit Unit)) [0, 1] 1).2 = false)
    ∧ ((run false false false 1 [procFailAtOne]
          (fun _ => (Except.ok () : Except Unit Unit)) [0, 1] 1).1.outputCalls
        = [[0]]
      ∧ (run false false false 1 [procFailAtOne]
          (fun _ => (Except.ok () : Except Unit Unit)) [0, 1] 1).1.error
          = some (RunError.transformError ())
      ∧ (run false false false 1 [procFailAtOne]
          (fun _ => (Except.ok () : Except Unit Unit)) [0, 1] 1).2 = false) := by
  constructor
  · exact C6_transform_failure_aborts_batch [procFailAtOne] _ (fun _ => rfl)
      [0, 1] 1 false 1 [[0]] [[0]] [1] [] () rfl rfl rfl true
  · exact C6_transform_failure_aborts_batch [procFailAtOne] _ (fun _ => rfl)
      [0, 1] 1 false 1 [[0]] [[0]] [1] [] () rfl rfl rfl false

/-- C7: `run` is callable exactly once per pipeline — a run that completes
leaves the done flag set, and invoking `run` with the done flag set fails
with the AssertionError from `assert not self.done`, processing no batch
and invoking no output procedure, instead of executing again. -/
theorem C7_run_once {α ε : Type} (parallel loggerOn : Bool) (k : Nat)
    (processors : List (α → Except ε α)) (output : List α → Except ε Unit)
    (src : List α) (B : Nat) :
    run parallel true loggerOn k processors output src B
      = (⟨[], [], some RunError.assertionError⟩, true)
    ∧ ((run parallel false loggerOn k processors output src B).1.error = none →
        (run parallel false loggerOn k processors output src B).2 = true) := by
  constructor
  · simp [run]
  · intro h
    cases parallel
    · rw [run_seq_done]
      rw [run_seq_result] at h
      simp [h]
    · rcases runParLoop_error_shape loggerOn k (composedCallE processors)
        output (batch_generator src B) 0 with hl | ⟨e, hl⟩
      · cases hbs : batch_generator src B with
        | nil =>
          have := run_par_empty loggerOn k processors output src B hbs
          rw [this] at h
          exact Option.noConfusion h
        | cons c cs =>
          exact (run_par_complete loggerOn k processors output src B hl
            (by rw [hbs]; simp)).2
      · have := run_par_error_some loggerOn k processors output src B
          (RunError.transformError e) hl
        rw [this.1] at h
        exact Option.noConfusion h

theorem C7_run_once_witness :
    run false true false 1 ([] : List (Nat → Except Unit Nat))
        (fun _ => Except.ok ()) [1] 1
      = (⟨[], [], some RunError.assertionError⟩, true)
    ∧ (run false false false 1 ([] : List (Nat → Except Unit Nat))
        (fun _ => Except.ok ()) [1] 1).2 = true :=
  ⟨(C7_run_once false false 1 [] _ [1] 1).1,
   (C7_run_once false false 1 [] _ [1] 1).2 (by decide)⟩

/-- C9 counterexample: a sequential run with a logger configured and
`log_every_iter = 1` processes three batches — so a progress message is due
at every batch — yet logs nothing, refuting the claim that the progress
message is logged regardless of whether the pipeline runs in sequential or
parallel mode. -/
theorem C9_progress_logging_counterexample :
    (run false false true 1 [fun n => Except.ok (n + 1)]
        (fun _ => (Except.ok () : Except Unit Unit)) [10, 20, 30] 1).1.logs
      = []
    ∧ (run false false true 1 [fun n => Except.ok (n + 1)]
        (fun _ => (Except.ok () : Except Unit Unit))
        [10, 20, 30] 1).1.outputCalls.length = 3 := by
  decide

/-- C9 amended: progress logging happens only in parallel mode — with a
logger configured, a parallel run whose transformations succeed logs at
exactly the batch indices divisible by `log_every_iter` (0, k, 2k, ...),
while a sequential run logs no progress message at all. -/
theorem C9_progress_logging_amended {α ε : Type}
    (processors : List (α → Except ε α)) (output : List α → Except ε Unit)
    (src : List α) (B k : Nat) (hk : 1 ≤ k)
    (hproc : ∀ a : α, ∃ r, composedCallE processors a = Except.ok r) :
    (run true false true k processors output src B).1.logs
      = (List.range (batch_generator src B).length).filter
          (fun i => i % k == 0)
    ∧ (run false false true k processors output src B).1.logs = [] := by
  constructor
  · rw [run_par_logs]
    have h := (runParLoop_ok true k (composedCallE processors) output
      (map_ordered_ok _ hproc) (batch_generator src B) 0).2
    rw [h, List.range_eq_range']
    simp
  · rw [run_seq_result]
    exact runSeqLoop_logs _ _ _

theorem C9_progress_logging_amended_witness :
    ((run true false true 2 ([] : List (Nat → Except Unit Nat))
        (fun _ => Except.ok ()) [10, 20, 30, 40, 50] 1).1.logs
      = (List.range (batch_generator [10, 20, 30, 40, 50] 1).length).filter
          (fun i => i % 2 == 0))
    ∧ (run false false true 2 ([] : List (Nat → Except Unit Nat))
        (fun _ => Except.ok ()) [10, 20, 30, 40, 50] 1).1.logs = [] :=
  C9_progress_logging_amended [] _ [10, 20, 30, 40, 50] 1 2 (by decide)
    (fun a => ⟨a, rfl⟩)

end Pipelib
